import Mathlib

/-!
Verification of the impresso image sanity-check engine
(`sanity_check/images/check_images.py`).

The Python source is shallowly embedded: each checker function becomes a
Lean function over explicit input structures, filesystem reads become
fields of those structures, Python exceptions become `Except String`,
and Python dictionaries with `setdefault(k, []).append(v)` semantics
become association lists.
-/

set_option autoImplicit false

namespace ImagesCheck

/-! ### Python string primitives

Helpers mirroring the Python string operations used by the source:
`str.index`, `sub in s`, `os.path.basename`, `os.path.splitext`,
`str.zfill`, `s[-8:-4]`, `str.split('/', 1)`, `str.split('/')[-1]`. -/

/-- First index at which `sub` occurs in `l` (offset by `i`), or `none`.
Models Python `str.index` / `str.find` over char lists. -/
def findSubAux (sub : List Char) : List Char → Nat → Option Nat
  | [], i => if sub.isPrefixOf ([] : List Char) then some i else none
  | c :: t, i => if sub.isPrefixOf (c :: t) then some i else findSubAux sub t (i + 1)

/-- Models Python `s.index(sub)`: `some` of the first match index, `none`
when `sub` does not occur (Python raises `ValueError`). -/
def pyIndex (s sub : String) : Option Nat :=
  findSubAux sub.toList s.toList 0

/-- Models Python `sub in s` (substring containment). -/
def strContains (s sub : String) : Bool :=
  (pyIndex s sub).isSome

/-- Models Python `s[i:]` (character-based slice from index `i`). -/
def pyDropStr (s : String) (i : Nat) : String :=
  String.mk (s.toList.drop i)

/-- Models Python `s[:i]` (character-based slice up to index `i`). -/
def pyTakeStr (s : String) (i : Nat) : String :=
  String.mk (s.toList.take i)

/-- Models `os.path.basename`: the part of the path after the last `/`. -/
def pyBasename (s : String) : String :=
  String.mk ((s.toList.reverse.takeWhile (fun c => c ≠ '/')).reverse)

/-- Index of the last occurrence of `c` in `l`, if any. -/
def lastIdxOf (c : Char) (l : List Char) : Option Nat :=
  match l.reverse.indexOf? c with
  | none => none
  | some j => some (l.length - 1 - j)

/-- Models `os.path.splitext(b)[0]` on a basename: strip the extension
starting at the last dot, unless every character before that dot is
itself a dot (Python keeps names like `.json` whole). -/
def splitextStem (b : String) : String :=
  let l := b.toList
  match lastIdxOf '.' l with
  | none => b
  | some i => if (l.take i).any (fun c => c ≠ '.') then String.mk (l.take i) else b

/-- Models Python `s.zfill (w)`: left-pad with `'0'` up to width `w`,
keeping a leading sign character in front of the padding. -/
def pyZfill (s : String) (w : Nat) : String :=
  match s.toList with
  | [] => String.mk (List.replicate w '0')
  | c :: rest =>
      if c = '+' ∨ c = '-' then
        String.mk (c :: (List.replicate (w - (rest.length + 1)) '0' ++ rest))
      else
        String.mk (List.replicate (w - (rest.length + 1)) '0' ++ (c :: rest))

/-- Models Python `s[-8:-4]`: the four characters ending four before the
end of the string, with Python's clamping for short strings. -/
def pySliceNeg8Neg4 (s : String) : String :=
  let l := s.toList
  let n := l.length
  String.mk ((l.drop (n - 8)).take ((n - 4) - (n - 8)))

/-- Models Python `s.split('/')[-1]`: the segment after the last slash. -/
def lastSegment (s : String) : String :=
  String.mk ((s.toList.reverse.takeWhile (fun c => c ≠ '/')).reverse)

/-- Models Python `s.split('/', 1)`: a one- or two-element list. -/
def pySplit1 (s : String) : List String :=
  match pyIndex s "/" with
  | none => [s]
  | some i => [String.mk (s.toList.take i), String.mk (s.toList.drop (i + 1))]

/-- `some a` becomes `Except.ok a`; `none` becomes the given Python error. -/
def orElseErr {α : Type} (o : Option α) (e : String) : Except String α :=
  match o with
  | some a => .ok a
  | none => .error e

/-! ### Dictionaries with `setdefault(k, []).append(v)` semantics -/

/-- Python `d.setdefault(k, []).append(v)` on a dict kept as an
association list in insertion order. -/
def appendEntry {κ : Type} [DecidableEq κ] (d : List (κ × List String)) (k : κ) (v : String) :
    List (κ × List String) :=
  match d with
  | [] => [(k, [v])]
  | (k', l) :: rest =>
      if k' = k then (k', l ++ [v]) :: rest else (k', l) :: appendEntry rest k v

/-- Dictionary lookup (`d[k]` / `k in d`). -/
def lookupEntry {κ : Type} [DecidableEq κ] (d : List (κ × List String)) (k : κ) :
    Option (List String) :=
  match d with
  | [] => none
  | (k', l) :: rest => if k' = k then some l else lookupEntry rest k

/-- The list stored under `k`, or `[]` when `k` is absent. -/
def listFor {κ : Type} [DecidableEq κ] (d : List (κ × List String)) (k : κ) : List String :=
  (lookupEntry d k).getD []

/-! ### Case and stats enumerations (`OriginalImageCase`, `CanonicalImageCase`,
`CanonicalImageStats`, `OriginalJournalStats` in the source) -/

/-- `CanonicalImageCase` enum, constructors in Python definition order. -/
inductive CanonicalImageCase : Type where
  | issues_wo_jp2
  | issues_with_wrongnumber_infofile
  | page_wo_jp2
  | issues_wo_infofile
  | infofile_with_wrongnumber_img
  | image_incorrect_filename
  | imagefile_wo_journalname
  | infofile_wo_journalname
  | imagefile_wo_correctdate
  | infofile_wo_correctdate
  | jp2_wrongdimensions
deriving DecidableEq, Repr

/-- The `.value` string of each `CanonicalImageCase` member. -/
def CanonicalImageCase.value : CanonicalImageCase → String
  | .issues_wo_jp2 => "issues w/o jp2"
  | .issues_with_wrongnumber_infofile => "issues w/ incorrect # infofile"
  | .page_wo_jp2 => "pages w/o jp2"
  | .issues_wo_infofile => "issues w/o infofile"
  | .infofile_with_wrongnumber_img => "infofile w/ incorrect # img"
  | .image_incorrect_filename => "jp2 w/ incorrect filename"
  | .imagefile_wo_journalname => "jp2 w/o journalname"
  | .infofile_wo_journalname => "infofile w/o journalname"
  | .imagefile_wo_correctdate => "jp2 w/ incorrect date"
  | .infofile_wo_correctdate => "infofile w/ incorrect date"
  | .jp2_wrongdimensions => "jp2_wrongdimensions"

/-- `CanonicalImageCase.__members__` iteration order. -/
def canonicalCaseMembers : List CanonicalImageCase :=
  [.issues_wo_jp2, .issues_with_wrongnumber_infofile, .page_wo_jp2, .issues_wo_infofile,
   .infofile_with_wrongnumber_img, .image_incorrect_filename, .imagefile_wo_journalname,
   .infofile_wo_journalname, .imagefile_wo_correctdate, .infofile_wo_correctdate,
   .jp2_wrongdimensions]

/-- A key of the per-issue canonical cases dictionary.  Every `setdefault`
call in `check_canonical_issue` keys the dict with the member's `.value`
string, except the `jp2_wrongdimensions` one (line 295), which passes the
enum member object itself; in Python the two kinds of key never compare
equal, so both must be represented. -/
inductive CaseKey : Type where
  | str (s : String)
  | enumMember (c : CanonicalImageCase)
deriving DecidableEq, Repr

/-- `CanonicalImageStats` dict (`initialize_dict(CanonicalImageStats, 0)`),
one `Nat` field per enum member. -/
structure CanStats where
  number_tif : Nat := 0
  number_png : Nat := 0
  number_jpg : Nat := 0
  size_jp2 : Nat := 0
  number_original_pagefolder : Nat := 0
  number_canonical_jp2 : Nat := 0
deriving DecidableEq, Repr

/-- `OriginalJournalStats` dict (`initialize_dict(OriginalJournalStats, 0)`). -/
structure OrigStats where
  issues_orig : Nat := 0
  issues_valid : Nat := 0
  issues_with_large_pdf : Nat := 0
  issues_with_small_pdfs : Nat := 0
  number_pages : Nat := 0
  number_tif : Nat := 0
  number_png : Nat := 0
  number_jpg : Nat := 0
deriving DecidableEq, Repr

/-! ### Inputs of `check_canonical_issue`

`check_canonical_issue(issue_dir_original, issue_dir_canonical)` reads the
filesystem: the original `Document.zip` (page folders), the glob results
`*.jp2` (with `os.path.getsize` per file) and `*.json` in the canonical
directory, and the parsed JSON array of the first info file.  Those reads
are represented as fields of `CanonicalInput`. -/

/-- State of the original issue's `Document.zip`. -/
inductive ZipState : Type where
  /-- `os.path.isfile` is false: no container. -/
  | absent
  /-- `zipfile.ZipFile` raises `BadZipfile`. -/
  | corrupt
  /-- Archive opens; `img_utils.get_page_folders` yields these folders. -/
  | ok (pageFolders : List String)
deriving DecidableEq, Repr

/-- One record of the canonical metadata JSON array: source-format label
`"s"`, source dimensions `"s_dim"`, derived dimensions `"d_dim"`. -/
structure InfoRecord where
  s : String
  s_dim : List Nat
  d_dim : List Nat
deriving DecidableEq, Repr

/-- Input of `check_canonical_issue`: the fields of the two `IssueDir`s the
function reads, plus the filesystem contents it observes. -/
structure CanonicalInput where
  /-- `issue_dir_original.journal`. -/
  origJournal : String
  /-- `str(issue_dir_original.date)`. -/
  origDate : String
  /-- `issue_dir_canonical.journal`. -/
  canoJournal : String
  /-- `path.get_issueshortpath(issue_dir_canonical)` (external helper). -/
  shortCano : String
  /-- The original issue's `Document.zip`. -/
  origZip : ZipState
  /-- `glob("*.jp2")` results in glob order, each with its byte size. -/
  jp2 : List (String × Nat)
  /-- `glob("*.json")` results in glob order. -/
  infoPaths : List String
  /-- Parsed JSON array of `info[0]` (read only when info and jp2 exist). -/
  infoRecords : List InfoRecord
deriving DecidableEq, Repr

/-- Per-issue cases dictionary type. -/
abbrev CasesDict := List (CaseKey × List String)

/-- Page folders observed by `check_canonical_issue`: empty unless the zip
opened (absent file or `BadZipfile` both leave `page_folders = []`). -/
def pageFoldersOf (z : ZipState) : List String :=
  match z with
  | .ok pf => pf
  | _ => []

/-! ### `check_image_pairs` (source lines 134-158) -/

/-- `check_image_pairs(page_folders, jp2)`: pages whose zero-filled last
path segment does not occur among the `img[-8:-4]` keys of the jp2 list. -/
def check_image_pairs (page_folders : List String) (jp2 : List String) : List String :=
  let keys := jp2.map pySliceNeg8Neg4
  page_folders.filter (fun page => ¬ keys.contains (pyZfill (lastSegment page) 4))

/-! ### `check_canonical_issue` (source lines 161-317) -/

/-- Body of the `for img_file in jp2` loop (source lines 225-245).  The
accumulator carries the cases dict, the running `jp2_bytes`, and the stats
(whose `size_jp2` field is incremented by the running `jp2_bytes` on every
iteration, exactly as in the source).  `img_file.index(...)` raising
`ValueError` is the error case. -/
def jp2Step (cf : String → Bool) (origJournal origDate canoJournal : String)
    (acc : CasesDict × Nat × CanStats) (img : String × Nat) :
    Except String (CasesDict × Nat × CanStats) := do
  let (cases, bytes, st) := acc
  let idx ← orElseErr (pyIndex img.1 canoJournal) "ValueError"
  let shortjp2 := pyDropStr img.1 idx
  let bn := splitextStem (pyBasename img.1)
  let cases := if cf bn = false then
      appendEntry cases (CaseKey.str CanonicalImageCase.image_incorrect_filename.value) shortjp2
    else cases
  let cases := if strContains bn origJournal = false then
      appendEntry cases (CaseKey.str CanonicalImageCase.imagefile_wo_journalname.value) shortjp2
    else cases
  let cases := if strContains bn origDate = false then
      appendEntry cases (CaseKey.str CanonicalImageCase.imagefile_wo_correctdate.value) shortjp2
    else cases
  let bytes := bytes + img.2
  let st := { st with size_jp2 := st.size_jp2 + bytes }
  return (cases, bytes, st)

/-- The info-file block (source lines 247-269).  Returns the updated cases
dict and `shortinfo` (which stays `""` when there is no info file). -/
def infoPhase (origJournal origDate canoJournal shortCano : String)
    (infoPaths : List String) (cases : CasesDict) :
    Except String (CasesDict × String) :=
  match infoPaths with
  | [] =>
      .ok (appendEntry cases (CaseKey.str CanonicalImageCase.issues_wo_infofile.value) shortCano,
        "")
  | f :: _ => do
      let idx ← orElseErr (pyIndex f canoJournal) "ValueError"
      let shortinfo := pyDropStr f idx
      let cases := if infoPaths.length ≠ 1 then
          appendEntry cases (CaseKey.str CanonicalImageCase.issues_with_wrongnumber_infofile.value)
            shortCano
        else cases
      let baseinfo := pyBasename f
      let dashIdx ← orElseErr (pyIndex baseinfo "-") "ValueError"
      let infojournal := pyTakeStr baseinfo dashIdx
      let cases := if origJournal ≠ infojournal then
          appendEntry cases (CaseKey.str CanonicalImageCase.infofile_wo_journalname.value)
            shortinfo
        else cases
      let cases := if strContains baseinfo origDate = false then
          appendEntry cases (CaseKey.str CanonicalImageCase.infofile_wo_correctdate.value)
            shortinfo
        else cases
      return (cases, shortinfo)

/-- Body of the `for page in list_pages_wo_jp2` loop (source lines 276-278):
`page.index(journal)` may raise `ValueError`. -/
def pageWoJp2Step (canoJournal : String) (cs : CasesDict) (page : String) :
    Except String CasesDict := do
  let idx ← orElseErr (pyIndex page canoJournal) "ValueError"
  return appendEntry cs (CaseKey.str CanonicalImageCase.page_wo_jp2.value)
    (pyDropStr page idx)

/-- The `if info and jp2` block (source lines 271-301), continued: page
coverage, source-format tallies, the dimension check and the record-count
cross-check. -/
def detailPhase (canoJournal shortinfo : String) (pageFolders : List String)
    (jp2Paths : List String) (records : List InfoRecord)
    (cases : CasesDict) (st : CanStats) : Except String (CasesDict × CanStats) := do
  let missing := check_image_pairs pageFolders jp2Paths
  let cases ← missing.foldlM (pageWoJp2Step canoJournal) cases
  let (cases, st) := records.foldl (fun (acc : CasesDict × CanStats) r =>
      let (cs, s) := acc
      let s := if strContains r.s "tif" then { s with number_tif := s.number_tif + 1 }
        else if strContains r.s "png" then { s with number_png := s.number_png + 1 }
        else if strContains r.s "jpg" then { s with number_jpg := s.number_jpg + 1 }
        else s
      let cs := if r.s_dim ≠ r.d_dim then
          appendEntry cs (CaseKey.enumMember CanonicalImageCase.jp2_wrongdimensions) shortinfo
        else cs
      (cs, s)) (cases, st)
  let cases := if records.length ≠ jp2Paths.length then
      appendEntry cases (CaseKey.str CanonicalImageCase.infofile_with_wrongnumber_img.value)
        shortinfo
    else cases
  return (cases, st)

/-- `check_canonical_issue`: the per-issue canonical consistency check.
`cf` is the external `path.check_filenaming` predicate. -/
def checkCanonicalIssue (cf : String → Bool) (inp : CanonicalInput) :
    Except String (CasesDict × CanStats) := do
  let pageFolders := pageFoldersOf inp.origZip
  let st0 : CanStats := { number_original_pagefolder := pageFolders.length }
  let (cases1, st1) ←
    if inp.jp2 = [] then
      pure (appendEntry [] (CaseKey.str CanonicalImageCase.issues_wo_jp2.value) inp.shortCano,
        st0)
    else do
      let st := { st0 with number_canonical_jp2 := st0.number_canonical_jp2 + inp.jp2.length }
      let (cs, _, st') ← inp.jp2.foldlM
        (jp2Step cf inp.origJournal inp.origDate inp.canoJournal) ([], 0, st)
      pure (cs, st')
  let (cases2, shortinfo) ← infoPhase inp.origJournal inp.origDate inp.canoJournal
    inp.shortCano inp.infoPaths cases1
  if inp.infoPaths ≠ [] ∧ inp.jp2 ≠ [] then
    detailPhase inp.canoJournal shortinfo pageFolders (inp.jp2.map Prod.fst)
      inp.infoRecords cases2 st1
  else
    return (cases2, st1)

/-! ### `check_original_issue` (source lines 320-446) -/

/-- `OriginalImageCase` `.value` strings in Python definition order.
`check_original_issue` and the original journal merge only ever key
dictionaries with these strings. -/
def originalCaseValues : List String :=
  ["issues w/o zip", "issues w/ corruptedzip",
   "issues_homogeneouscoverage_tifs", "issues_homogeneouscoverage_pngs",
   "issues_homogeneouscoverage_jpgs", "issues_homogeneouscoverage_singlepngs",
   "issues_heterocoverage_all", "issues_heterocoverage_tif_png",
   "issues_heterocoverage_tif_jpg", "issues_heterocoverage_png_jpg",
   "issues_missing_pageimg"]

/-- Contents of an original archive that opened successfully, as exposed by
the external `img_utils` accessors: the page folders and the per-format
image listings. -/
structure ArchiveContents where
  /-- `img_utils.get_page_folders(archive)`. -/
  pageFolders : List String
  /-- `img_utils.get_img_from_archive(archive, "Res/PageImg", ".tif")`. -/
  tifs : List String
  /-- `img_utils.get_img_from_archive(archive, "/Img", ".png", "/Pg")`. -/
  pngs : List String
  /-- `img_utils.get_img_from_archive(archive, "/Img", ".jpg", "/Pg")`. -/
  jpgs : List String
deriving DecidableEq, Repr

/-- State of an original issue's `Document.zip` for `check_original_issue`. -/
inductive OrigZipState : Type where
  | absent
  | corrupt
  | ok (c : ArchiveContents)
deriving DecidableEq, Repr

/-- Input of `check_original_issue`: fields of `issue_dir_original` it
reads, the archive, and the pdf glob results. -/
structure OriginalInput where
  /-- `path.get_issueshortpath(issue_dir_original)` (external helper). -/
  shortOrig : String
  /-- The issue's `Document.zip`. -/
  zip : OrigZipState
  /-- `glob` of `*.pdf` / `*.PDF` directly in the issue directory. -/
  bigPdfs : List String
  /-- `glob` of `*.pdf` / `*.PDF` under `Res/PDF`. -/
  smallPdfs : List String
deriving DecidableEq, Repr

/-- Per-issue cases dictionary of the original check (string keys only). -/
abbrev OrigCasesDict := List (String × List String)

/-- The five page-loop counters of `check_original_issue`. -/
structure PageCounters where
  withTifs : Nat := 0
  withPngs : Nat := 0
  severalPngs : Nat := 0
  onePngs : Nat := 0
  withJpgs : Nat := 0
deriving DecidableEq, Repr

/-- The `d = defaultdict(list); for i in pngs: elems = i.split("/", 1);
d[elems[0]].append(elems[1])` grouping (source lines 399-402).  `elems[1]`
raises `IndexError` when a png path contains no `/`. -/
def pngGroupStep (d : List (String × List String)) (i : String) :
    Except String (List (String × List String)) :=
  match pySplit1 i with
  | [a, b] => .ok (appendEntry d a b)
  | _ => .error "IndexError"

/-- The grouping fold itself, starting from the empty `defaultdict`. -/
def pngGroups (pngs : List String) : Except String (List (String × List String)) :=
  pngs.foldlM pngGroupStep []

/-- The `for p, img_path in d.items()` counting (source lines 404-408):
how many png groups hold several images and how many hold exactly one. -/
def countGroups (d : List (String × List String)) : Nat × Nat :=
  d.foldl (fun (acc : Nat × Nat) e =>
    if e.2.length > 1 then (acc.1 + 1, acc.2)
    else if e.2.length = 1 then (acc.1, acc.2 + 1)
    else acc) (0, 0)

/-- Body of the `for page in page_folders` loop (source lines 383-415).
`gt`, `gp`, `gj` are the external `img_utils.get_tif`, `get_png`,
`get_jpg` matchers. -/
def pageStep (gt gp gj : List String → String → Option String)
    (tifs pngs jpgs : List String) (acc : PageCounters) (page : String) :
    Except String PageCounters :=
  let pd := lastSegment page
  match gt tifs pd with
  | some _ => .ok { acc with withTifs := acc.withTifs + 1 }
  | none =>
    match gp pngs pd with
    | some _ => do
        let d ← pngGroups pngs
        let (sev, one) := countGroups d
        return { acc with withPngs := acc.withPngs + 1,
                          severalPngs := acc.severalPngs + sev,
                          onePngs := acc.onePngs + one }
    | none =>
      match gj jpgs pd with
      | some _ => .ok { acc with withJpgs := acc.withJpgs + 1 }
      | none => .ok acc

/-- The `# reporting cases` decision chain (source lines 417-442),
translated branch for branch.  Returns `none` exactly when the Python
variable `case` stays `None`. -/
def classifyOriginal (pc : PageCounters) (pageNumber : Nat) : Option String :=
  let total := pc.withTifs + pc.withPngs + pc.withJpgs
  let totalPngs := pc.onePngs + pc.severalPngs
  if total = pageNumber then
    if pc.withTifs ≠ 0 ∧ pc.withPngs ≠ 0 ∧ pc.withJpgs ≠ 0 then
      some "issues_heterocoverage_all"
    else if pc.withTifs ≠ 0 ∧ pc.withPngs ≠ 0 ∧ pc.withJpgs = 0 then
      some "issues_heterocoverage_tif_png"
    else if pc.withTifs ≠ 0 ∧ pc.withPngs = 0 ∧ pc.withJpgs ≠ 0 then
      some "issues_heterocoverage_tif_jpg"
    else if pc.withTifs = 0 ∧ pc.withPngs ≠ 0 ∧ pc.withJpgs ≠ 0 then
      some "issues_heterocoverage_png_jpg"
    else if pc.withTifs = total ∧ pc.withPngs = 0 ∧ pc.withJpgs = 0 then
      some "issues_homogeneouscoverage_tifs"
    else if pc.withTifs = 0 ∧ pc.withPngs = total ∧ pc.withJpgs = 0 then
      some "issues_homogeneouscoverage_pngs"
    else if pc.withTifs = 0 ∧ pc.withPngs = 0 ∧ pc.withJpgs = total then
      some "issues_homogeneouscoverage_jpgs"
    else if pc.withTifs = 0 ∧ pc.onePngs ≠ 0 ∧ totalPngs = total ∧ pc.withJpgs = 0 then
      some "issues_homogeneouscoverage_singlepngs"
    else none
  else
    some "issues_missing_pageimg"

/-- `check_original_issue`: the per-issue original check.  Stats are
accumulated into the all-zero `initialize_dict(OriginalJournalStats, 0)`
dict; the cases dict starts empty and receives at most one entry. -/
def checkOriginalIssue (gt gp gj : List String → String → Option String)
    (inp : OriginalInput) : Except String (OrigCasesDict × OrigStats) :=
  match inp.zip with
  | .absent => .ok ([("issues w/o zip", [inp.shortOrig])], {})
  | .corrupt => .ok ([("issues w/ corruptedzip", [inp.shortOrig])], {})
  | .ok a => do
      let st : OrigStats :=
        { issues_valid := 1,
          number_pages := a.pageFolders.length,
          number_tif := a.tifs.length,
          number_png := a.pngs.length,
          number_jpg := a.jpgs.length,
          issues_with_large_pdf := if inp.bigPdfs ≠ [] then 1 else 0,
          issues_with_small_pdfs := if inp.smallPdfs ≠ [] then 1 else 0 }
      let pc ← a.pageFolders.foldlM (pageStep gt gp gj a.tifs a.pngs a.jpgs) {}
      let cases : OrigCasesDict :=
        match classifyOriginal pc a.pageFolders.length with
        | some k => [(k, [inp.shortOrig])]
        | none => []
      return (cases, st)

/-! ### Journal-level merges (source lines 489-501 and 537-548)

`check_canonical_journal` / `check_original_journal` fold the per-issue
results into journal-level dictionaries: for each enum member in
definition order, the first per-issue key equal to `member.value` (Python
string equality, so an enum-member key never matches) contributes
`cases[c][0]` — the first element of that issue's list — and every stats
field is summed. -/

/-- One result's contribution to the journal cases dict: for each `v` of
`values` in order, find the first issue-dict key equal to `toKey v` and
append the head of its list under `v` (`cases[c][0]`; per-issue lists are
nonempty by construction, `headD ""` is the total stand-in). -/
def mergeStep {κ : Type} [DecidableEq κ] (toKey : String → κ) (values : List String)
    (g : List (String × List String)) (cases : List (κ × List String)) :
    List (String × List String) :=
  values.foldl (fun g v =>
    match cases.find? (fun e => decide (e.1 = toKey v)) with
    | some e => appendEntry g v (e.2.headD "")
    | none => g) g

/-- Fieldwise sum of `CanonicalImageStats` dicts. -/
def addCanStats (a b : CanStats) : CanStats :=
  { number_tif := a.number_tif + b.number_tif,
    number_png := a.number_png + b.number_png,
    number_jpg := a.number_jpg + b.number_jpg,
    size_jp2 := a.size_jp2 + b.size_jp2,
    number_original_pagefolder := a.number_original_pagefolder + b.number_original_pagefolder,
    number_canonical_jp2 := a.number_canonical_jp2 + b.number_canonical_jp2 }

/-- Fieldwise sum of `OriginalJournalStats` dicts. -/
def addOrigStats (a b : OrigStats) : OrigStats :=
  { issues_orig := a.issues_orig + b.issues_orig,
    issues_valid := a.issues_valid + b.issues_valid,
    issues_with_large_pdf := a.issues_with_large_pdf + b.issues_with_large_pdf,
    issues_with_small_pdfs := a.issues_with_small_pdfs + b.issues_with_small_pdfs,
    number_pages := a.number_pages + b.number_pages,
    number_tif := a.number_tif + b.number_tif,
    number_png := a.number_png + b.number_png,
    number_jpg := a.number_jpg + b.number_jpg }

/-- The `for cases, stats in results` merge of `check_canonical_journal`
(source lines 489-500), producing the journal CaseRegistry and summed
image stats. -/
def mergeCanonicalResults (results : List (CasesDict × CanStats)) :
    List (String × List String) × CanStats :=
  results.foldl (fun acc r =>
    (mergeStep CaseKey.str (canonicalCaseMembers.map CanonicalImageCase.value) acc.1 r.1,
     addCanStats acc.2 r.2)) ([], {})

/-- The `for local_cases, local_stats in results` merge of
`check_original_journal` (source lines 537-548). -/
def mergeOriginalResults (results : List (OrigCasesDict × OrigStats)) :
    List (String × List String) × OrigStats :=
  results.foldl (fun acc r =>
    (mergeStep id originalCaseValues acc.1 r.1,
     addOrigStats acc.2 r.2)) ([], {})

/-- The nine terminal categories of the Original Coverage Classifier:
the eight full-coverage cases plus `issues_missing_pageimg`. -/
def terminalOriginalCases : List String :=
  ["issues_homogeneouscoverage_tifs", "issues_homogeneouscoverage_pngs",
   "issues_homogeneouscoverage_jpgs", "issues_homogeneouscoverage_singlepngs",
   "issues_heterocoverage_all", "issues_heterocoverage_tif_png",
   "issues_heterocoverage_tif_jpg", "issues_heterocoverage_png_jpg",
   "issues_missing_pageimg"]

/-- A page is uncovered when none of the three matchers finds an image
for its page digit (the implicit fourth outcome of the page loop). -/
def uncoveredPage (gt gp gj : List String → String → Option String)
    (tifs pngs jpgs : List String) (p : String) : Bool :=
  (gt tifs (lastSegment p)).isNone && (gp pngs (lastSegment p)).isNone
    && (gj jpgs (lastSegment p)).isNone

/-- The pages of an issue matched by no format. -/
def missingPages (gt gp gj : List String → String → Option String)
    (tifs pngs jpgs : List String) (pages : List String) : List String :=
  pages.filter (uncoveredPage gt gp gj tifs pngs jpgs)

/-! ### Association-list lemmas -/

theorem lookupEntry_appendEntry_self {κ : Type} [DecidableEq κ]
    (d : List (κ × List String)) (k : κ) (v : String) :
    lookupEntry (appendEntry d k v) k = some (listFor d k ++ [v]) := by
  induction d with
  | nil => simp [appendEntry, lookupEntry, listFor]
  | cons e rest ih =>
    obtain ⟨k', l⟩ := e
    by_cases h : k' = k
    · subst h
      simp [appendEntry, lookupEntry, listFor]
    · simp [appendEntry, lookupEntry, listFor, h, ih]

theorem lookupEntry_appendEntry_ne {κ : Type} [DecidableEq κ]
    (d : List (κ × List String)) (k k' : κ) (v : String) (h : k' ≠ k) :
    lookupEntry (appendEntry d k v) k' = lookupEntry d k' := by
  have hks : ¬ k = k' := fun hh => h hh.symm
  induction d with
  | nil => simp [appendEntry, lookupEntry, hks]
  | cons e rest ih =>
    obtain ⟨k₀, l⟩ := e
    by_cases h0 : k₀ = k
    · subst h0
      simp [appendEntry, lookupEntry, hks]
    · simp only [appendEntry, if_neg h0, lookupEntry]
      by_cases h1 : k₀ = k'
      · simp [h1]
      · simp [h1, ih]

theorem listFor_appendEntry_self {κ : Type} [DecidableEq κ]
    (d : List (κ × List String)) (k : κ) (v : String) :
    listFor (appendEntry d k v) k = listFor d k ++ [v] := by
  simp [listFor, lookupEntry_appendEntry_self]

theorem listFor_appendEntry_ne {κ : Type} [DecidableEq κ]
    (d : List (κ × List String)) (k k' : κ) (v : String) (h : k' ≠ k) :
    listFor (appendEntry d k v) k' = listFor d k' := by
  simp [listFor, lookupEntry_appendEntry_ne _ _ _ _ h]

/-! ### Page-loop lemmas for the Original Coverage Classifier -/

/-- When every png path contains a slash, the `defaultdict` grouping of the
page loop never hits `elems[1]` out of range. -/
theorem pngGroups_ok (pngs : List String)
    (hwf : ∀ p ∈ pngs, (pyIndex p "/").isSome) :
    ∃ d, pngGroups pngs = .ok d := by
  suffices h : ∀ (l : List String) (d₀ : List (String × List String)),
      (∀ p ∈ l, (pyIndex p "/").isSome) → ∃ d, l.foldlM pngGroupStep d₀ = .ok d by
    exact h pngs [] hwf
  intro l
  induction l with
  | nil => exact fun d₀ _ => ⟨d₀, rfl⟩
  | cons i rest ih =>
    intro d₀ hl
    obtain ⟨j, hj⟩ := Option.isSome_iff_exists.mp (hl i (by simp))
    have hstep : pngGroupStep d₀ i =
        .ok (appendEntry d₀ (String.mk (i.toList.take j)) (String.mk (i.toList.drop (j + 1)))) := by
      simp [pngGroupStep, pySplit1, hj]
    obtain ⟨d, hd⟩ := ih (appendEntry d₀ (String.mk (i.toList.take j))
      (String.mk (i.toList.drop (j + 1)))) (fun p hp => hl p (List.mem_cons_of_mem _ hp))
    refine ⟨d, ?_⟩
    rw [List.foldlM_cons, hstep]
    exact hd

/-- The page loop of `check_original_issue` succeeds when every png path
contains a slash, and its counters account for every page: each page
increments exactly one of the tif/png/jpg counters or is uncovered. -/
theorem pageLoop_counts (gt gp gj : List String → String → Option String)
    (tifs pngs jpgs : List String)
    (hwf : ∀ p ∈ pngs, (pyIndex p "/").isSome) :
    ∀ (pages : List String) (acc : PageCounters),
      ∃ pc, pages.foldlM (pageStep gt gp gj tifs pngs jpgs) acc = .ok pc ∧
        pc.withTifs + pc.withPngs + pc.withJpgs
            + (missingPages gt gp gj tifs pngs jpgs pages).length
          = acc.withTifs + acc.withPngs + acc.withJpgs + pages.length := by
  intro pages
  induction pages with
  | nil => exact fun acc => ⟨acc, rfl, by simp [missingPages]⟩
  | cons p rest ih =>
    intro acc
    rcases hgt : gt tifs (lastSegment p) with _ | t
    · rcases hgp : gp pngs (lastSegment p) with _ | g
      · rcases hgj : gj jpgs (lastSegment p) with _ | y
        · -- uncovered page
          obtain ⟨pc, hfold, hsum⟩ := ih acc
          refine ⟨pc, ?_, ?_⟩
          · rw [List.foldlM_cons]
            have hstep : pageStep gt gp gj tifs pngs jpgs acc p = .ok acc := by
              simp [pageStep, hgt, hgp, hgj]
            rw [hstep]; exact hfold
          · have hunc : uncoveredPage gt gp gj tifs pngs jpgs p = true := by
              simp [uncoveredPage, hgt, hgp, hgj]
            have hmiss : (missingPages gt gp gj tifs pngs jpgs (p :: rest)).length
                = (missingPages gt gp gj tifs pngs jpgs rest).length + 1 := by
              simp [missingPages, List.filter_cons, hunc]
            rw [hmiss, List.length_cons]
            omega
        · -- jpg page
          obtain ⟨pc, hfold, hsum⟩ := ih { acc with withJpgs := acc.withJpgs + 1 }
          refine ⟨pc, ?_, ?_⟩
          · rw [List.foldlM_cons]
            have hstep : pageStep gt gp gj tifs pngs jpgs acc p =
                .ok { acc with withJpgs := acc.withJpgs + 1 } := by
              simp [pageStep, hgt, hgp, hgj]
            rw [hstep]; exact hfold
          · have hunc : uncoveredPage gt gp gj tifs pngs jpgs p = false := by
              simp [uncoveredPage, hgt, hgp, hgj]
            have hmiss : (missingPages gt gp gj tifs pngs jpgs (p :: rest)).length
                = (missingPages gt gp gj tifs pngs jpgs rest).length := by
              simp [missingPages, List.filter_cons, hunc]
            rw [hmiss, List.length_cons]
            have hsum2 : pc.withTifs + pc.withPngs + pc.withJpgs
                + (missingPages gt gp gj tifs pngs jpgs rest).length
                = acc.withTifs + acc.withPngs + (acc.withJpgs + 1) + rest.length := hsum
            omega
      · -- png page
        obtain ⟨d, hd⟩ := pngGroups_ok pngs hwf
        obtain ⟨pc, hfold, hsum⟩ := ih
          { acc with withPngs := acc.withPngs + 1,
                     severalPngs := acc.severalPngs + (countGroups d).1,
                     onePngs := acc.onePngs + (countGroups d).2 }
        refine ⟨pc, ?_, ?_⟩
        · rw [List.foldlM_cons]
          have hstep : pageStep gt gp gj tifs pngs jpgs acc p =
              .ok { acc with withPngs := acc.withPngs + 1,
                             severalPngs := acc.severalPngs + (countGroups d).1,
                             onePngs := acc.onePngs + (countGroups d).2 } := by
            simp [pageStep, hgt, hgp, hd]
          rw [hstep]; exact hfold
        · have hunc : uncoveredPage gt gp gj tifs pngs jpgs p = false := by
            simp [uncoveredPage, hgt, hgp]
          have hmiss : (missingPages gt gp gj tifs pngs jpgs (p :: rest)).length
              = (missingPages gt gp gj tifs pngs jpgs rest).length := by
            simp [missingPages, List.filter_cons, hunc]
          rw [hmiss, List.length_cons]
          have hsum2 : pc.withTifs + pc.withPngs + pc.withJpgs
              + (missingPages gt gp gj tifs pngs jpgs rest).length
              = acc.withTifs + (acc.withPngs + 1) + acc.withJpgs + rest.length := hsum
          omega
    · -- tif page
      obtain ⟨pc, hfold, hsum⟩ := ih { acc with withTifs := acc.withTifs + 1 }
      refine ⟨pc, ?_, ?_⟩
      · rw [List.foldlM_cons]
        have hstep : pageStep gt gp gj tifs pngs jpgs acc p =
            .ok { acc with withTifs := acc.withTifs + 1 } := by
          simp [pageStep, hgt]
        rw [hstep]; exact hfold
      · have hunc : uncoveredPage gt gp gj tifs pngs jpgs p = false := by
          simp [uncoveredPage, hgt]
        have hmiss : (missingPages gt gp gj tifs pngs jpgs (p :: rest)).length
            = (missingPages gt gp gj tifs pngs jpgs rest).length := by
          simp [missingPages, List.filter_cons, hunc]
        rw [hmiss, List.length_cons]
        have hsum2 : pc.withTifs + pc.withPngs + pc.withJpgs
            + (missingPages gt gp gj tifs pngs jpgs rest).length
            = (acc.withTifs + 1) + acc.withPngs + acc.withJpgs + rest.length := hsum
        omega

set_option maxHeartbeats 1000000 in
/-- The classification chain of `check_original_issue` always produces a
case: for any counter values the Python variable `case` ends up non-`None`
and holds one of the nine terminal category strings. -/
theorem classifyOriginal_total (pc : PageCounters) (n : Nat) :
    ∃ k, classifyOriginal pc n = some k ∧ k ∈ terminalOriginalCases := by
  simp only [classifyOriginal]
  split_ifs with h0 h1 h2 h3 h4 h5 h6 h7 h8
  all_goals first
    | exact ⟨_, rfl, by simp [terminalOriginalCases]⟩
    | (exfalso; omega)

/-- Evaluation of `check_original_issue` on an opened archive, given the
page loop's outcome. -/
theorem checkOriginalIssue_ok (gt gp gj : List String → String → Option String)
    (so : String) (a : ArchiveContents) (bp sp : List String) (pc : PageCounters)
    (hfold : a.pageFolders.foldlM (pageStep gt gp gj a.tifs a.pngs a.jpgs) {} = .ok pc) :
    checkOriginalIssue gt gp gj ⟨so, .ok a, bp, sp⟩ =
      .ok ((match classifyOriginal pc a.pageFolders.length with
            | some k => [(k, [so])]
            | none => ([] : OrigCasesDict)),
        { issues_valid := 1, number_pages := a.pageFolders.length,
          number_tif := a.tifs.length, number_png := a.pngs.length,
          number_jpg := a.jpgs.length,
          issues_with_large_pdf := if bp ≠ [] then 1 else 0,
          issues_with_small_pdfs := if sp ≠ [] then 1 else 0 }) := by
  simp only [checkOriginalIssue]
  rw [hfold]
  rfl

/-! ### Claim C5: the classifier assigns exactly one terminal category and
accounts for every page -/

/-- C5: for every original issue whose container opens successfully (png
paths carrying the accessor's slash-separated container layout), the check
returns normally, the cases dict holds exactly one entry — a terminal
coverage category against the issue's short path — and the per-format page
counters plus the uncovered pages account for every page folder. -/
theorem original_classifier_exactly_one_case
    (gt gp gj : List String → String → Option String) (inp : OriginalInput)
    (a : ArchiveContents) (hz : inp.zip = .ok a)
    (hwf : ∀ p ∈ a.pngs, (pyIndex p "/").isSome) :
    ∃ pc k,
      a.pageFolders.foldlM (pageStep gt gp gj a.tifs a.pngs a.jpgs) {} = .ok pc ∧
      k ∈ terminalOriginalCases ∧
      checkOriginalIssue gt gp gj inp =
        .ok ([(k, [inp.shortOrig])],
          { issues_valid := 1, number_pages := a.pageFolders.length,
            number_tif := a.tifs.length, number_png := a.pngs.length,
            number_jpg := a.jpgs.length,
            issues_with_large_pdf := if inp.bigPdfs ≠ [] then 1 else 0,
            issues_with_small_pdfs := if inp.smallPdfs ≠ [] then 1 else 0 }) ∧
      pc.withTifs + pc.withPngs + pc.withJpgs
          + (missingPages gt gp gj a.tifs a.pngs a.jpgs a.pageFolders).length
        = a.pageFolders.length := by
  obtain ⟨pc, hfold, hsum⟩ :=
    pageLoop_counts gt gp gj a.tifs a.pngs a.jpgs hwf a.pageFolders {}
  obtain ⟨k, hk, hmem⟩ := classifyOriginal_total pc a.pageFolders.length
  refine ⟨pc, k, hfold, hmem, ?_, ?_⟩
  · obtain ⟨so, z, bp, sp⟩ := inp
    simp only at hz
    subst hz
    rw [checkOriginalIssue_ok gt gp gj so a bp sp pc hfold, hk]
  · have hsum2 : pc.withTifs + pc.withPngs + pc.withJpgs
        + (missingPages gt gp gj a.tifs a.pngs a.jpgs a.pageFolders).length
        = 0 + 0 + 0 + a.pageFolders.length := hsum
    omega

/-- The concrete issue used by the C5 witness: one page, no images. -/
def exInput5 : OriginalInput :=
  { shortOrig := "W", zip := .ok ⟨["1"], [], [], []⟩, bigPdfs := [], smallPdfs := [] }

/-- The archive contents of `exInput5`. -/
def exArch5 : ArchiveContents := ⟨["1"], [], [], []⟩

/-- Witness for C5 at a concrete issue with one uncovered page. -/
theorem original_classifier_exactly_one_case_witness :
    exInput5.zip = OrigZipState.ok exArch5 ∧
    (∀ p ∈ exArch5.pngs, (pyIndex p "/").isSome) ∧
    (∃ pc k,
      exArch5.pageFolders.foldlM
          (pageStep (fun _ _ => none) (fun _ _ => none) (fun _ _ => none)
            exArch5.tifs exArch5.pngs exArch5.jpgs) {} = .ok pc ∧
      k ∈ terminalOriginalCases ∧
      checkOriginalIssue (fun _ _ => none) (fun _ _ => none) (fun _ _ => none) exInput5 =
        .ok ([(k, [exInput5.shortOrig])],
          { issues_valid := 1, number_pages := exArch5.pageFolders.length,
            number_tif := exArch5.tifs.length, number_png := exArch5.pngs.length,
            number_jpg := exArch5.jpgs.length,
            issues_with_large_pdf := if exInput5.bigPdfs ≠ [] then 1 else 0,
            issues_with_small_pdfs := if exInput5.smallPdfs ≠ [] then 1 else 0 }) ∧
      pc.withTifs + pc.withPngs + pc.withJpgs
          + (missingPages (fun _ _ => none) (fun _ _ => none) (fun _ _ => none)
              exArch5.tifs exArch5.pngs exArch5.jpgs exArch5.pageFolders).length
        = exArch5.pageFolders.length) :=
 by
  refine ⟨?_, ?_, ?_⟩
  · exact rfl
  · decide
  · exact original_classifier_exactly_one_case (fun _ _ => none) (fun _ _ => none)
      (fun _ _ => none) exInput5 exArch5 rfl (by decide)

/-- Page-loop outcome when every page is png-covered: the tif and jpg
counters stay put and the png counter rises by the page count. -/
theorem pageLoop_allpng (gt gp gj : List String → String → Option String)
    (tifs pngs jpgs : List String)
    (hwf : ∀ p ∈ pngs, (pyIndex p "/").isSome) :
    ∀ (pages : List String) (acc : PageCounters),
      (∀ p ∈ pages, gt tifs (lastSegment p) = none ∧ (gp pngs (lastSegment p)).isSome) →
      ∃ pc, pages.foldlM (pageStep gt gp gj tifs pngs jpgs) acc = .ok pc ∧
        pc.withTifs = acc.withTifs ∧ pc.withJpgs = acc.withJpgs ∧
        pc.withPngs = acc.withPngs + pages.length := by
  intro pages
  induction pages with
  | nil => exact fun acc _ => ⟨acc, rfl, rfl, rfl, by simp⟩
  | cons p rest ih =>
    intro acc hcov
    obtain ⟨hgt, hgp⟩ := hcov p (by simp)
    obtain ⟨g, hg⟩ := Option.isSome_iff_exists.mp hgp
    obtain ⟨d, hd⟩ := pngGroups_ok pngs hwf
    obtain ⟨pc, hfold, h1, h2, h3⟩ := ih
      { acc with withPngs := acc.withPngs + 1,
                 severalPngs := acc.severalPngs + (countGroups d).1,
                 onePngs := acc.onePngs + (countGroups d).2 }
      (fun q hq => hcov q (List.mem_cons_of_mem _ hq))
    refine ⟨pc, ?_, ?_, ?_, ?_⟩
    · rw [List.foldlM_cons]
      have hstep : pageStep gt gp gj tifs pngs jpgs acc p =
          .ok { acc with withPngs := acc.withPngs + 1,
                         severalPngs := acc.severalPngs + (countGroups d).1,
                         onePngs := acc.onePngs + (countGroups d).2 } := by
        simp [pageStep, hgt, hg, hd]
      rw [hstep]; exact hfold
    · exact h1
    · exact h2
    · have h3' : pc.withPngs = acc.withPngs + 1 + rest.length := h3
      rw [List.length_cons]
      omega

/-- When the counters say "no tif, no jpg, every page png-covered, at least
one page", the classification chain lands on the only-png branch. -/
theorem classifyOriginal_allpng (pc : PageCounters) (n : Nat)
    (hT : pc.withTifs = 0) (hJ : pc.withJpgs = 0) (hP : pc.withPngs = n)
    (hn : n ≠ 0) :
    classifyOriginal pc n = some "issues_homogeneouscoverage_pngs" := by
  simp only [classifyOriginal]
  split_ifs with h0 h1 h2 h3 h4 h5 h6 h7 h8 <;> first | rfl | (exfalso; omega)

/-! ### Claim C1: only-png issues and the unreachable `singlepngs` branch -/

/-- An original issue with one page covered by exactly one png. -/
def exInput1 : OriginalInput :=
  { shortOrig := "ORIGTEST/1900/01/11",
    zip := .ok { pageFolders := ["1"], tifs := [], pngs := ["1/a.png"], jpgs := [] },
    bigPdfs := [], smallPdfs := [] }

/-- C1 counterexample: an issue whose single page is covered by exactly one
png is classified `issues_homogeneouscoverage_pngs`, not
`issues_homogeneouscoverage_singlepngs` as the claim states — the
only-png branch at source line 434 precedes and subsumes the singlepngs
branch at line 439. -/
theorem singlepng_issue_not_classified_singlepngs :
    checkOriginalIssue (fun _ _ => none) (fun l _ => l.head?) (fun _ _ => none) exInput1 =
      .ok ([("issues_homogeneouscoverage_pngs", ["ORIGTEST/1900/01/11"])],
        { issues_valid := 1, number_pages := 1, number_png := 1 }) ∧
    "issues_homogeneouscoverage_pngs" ≠ "issues_homogeneouscoverage_singlepngs" :=
  ⟨rfl, by decide⟩

/-- C1 amended: an original issue whose container opens, with at least one
page and with every page png-covered, is classified
`issues_homogeneouscoverage_pngs` — whether its pages carry one png each
or several. -/
theorem onlypng_issue_classified_homogeneous_pngs
    (gt gp gj : List String → String → Option String) (inp : OriginalInput)
    (a : ArchiveContents) (hz : inp.zip = .ok a)
    (hwf : ∀ p ∈ a.pngs, (pyIndex p "/").isSome)
    (hne : a.pageFolders ≠ [])
    (hcov : ∀ p ∈ a.pageFolders,
      gt a.tifs (lastSegment p) = none ∧ (gp a.pngs (lastSegment p)).isSome) :
    checkOriginalIssue gt gp gj inp =
      .ok ([("issues_homogeneouscoverage_pngs", [inp.shortOrig])],
        { issues_valid := 1, number_pages := a.pageFolders.length,
          number_tif := a.tifs.length, number_png := a.pngs.length,
          number_jpg := a.jpgs.length,
          issues_with_large_pdf := if inp.bigPdfs ≠ [] then 1 else 0,
          issues_with_small_pdfs := if inp.smallPdfs ≠ [] then 1 else 0 }) := by
  obtain ⟨pc, hfold, hT, hJ, hP⟩ :=
    pageLoop_allpng gt gp gj a.tifs a.pngs a.jpgs hwf a.pageFolders {} hcov
  have hT' : pc.withTifs = 0 := hT
  have hJ' : pc.withJpgs = 0 := hJ
  have hP' : pc.withPngs = 0 + a.pageFolders.length := hP
  have hn : a.pageFolders.length ≠ 0 :=
    fun h => hne (List.length_eq_zero.mp h)
  have hcls := classifyOriginal_allpng pc a.pageFolders.length hT' hJ'
    (by omega) hn
  obtain ⟨so, z, bp, sp⟩ := inp
  simp only at hz
  subst hz
  rw [checkOriginalIssue_ok gt gp gj so a bp sp pc hfold, hcls]

/-- The archive contents of `exInput1`. -/
def exArch1 : ArchiveContents := ⟨["1"], [], ["1/a.png"], []⟩

/-- Witness for the amended C1 at a concrete single-png issue. -/
theorem onlypng_issue_classified_homogeneous_pngs_witness :
    exInput1.zip = OrigZipState.ok exArch1 ∧
    (∀ p ∈ exArch1.pngs, (pyIndex p "/").isSome) ∧
    exArch1.pageFolders ≠ [] ∧
    (∀ p ∈ exArch1.pageFolders,
      (fun (_ : List String) (_ : String) => (none : Option String))
          exArch1.tifs (lastSegment p) = none ∧
      ((fun (l : List String) (_ : String) => l.head?)
          exArch1.pngs (lastSegment p)).isSome) ∧
    checkOriginalIssue (fun _ _ => none) (fun l _ => l.head?) (fun _ _ => none) exInput1 =
      .ok ([("issues_homogeneouscoverage_pngs", [exInput1.shortOrig])],
        { issues_valid := 1, number_pages := exArch1.pageFolders.length,
          number_tif := exArch1.tifs.length, number_png := exArch1.pngs.length,
          number_jpg := exArch1.jpgs.length,
          issues_with_large_pdf := if exInput1.bigPdfs ≠ [] then 1 else 0,
          issues_with_small_pdfs := if exInput1.smallPdfs ≠ [] then 1 else 0 }) :=
 by
  refine ⟨?_, ?_, ?_, ?_, ?_⟩
  · exact rfl
  · decide
  · decide
  · decide
  · exact onlypng_issue_classified_homogeneous_pngs (fun _ _ => none) (fun l _ => l.head?)
      (fun _ _ => none) exInput1 exArch1 rfl (by decide) (by decide) (by decide)

/-! ### Evaluation lemmas for `infoPhase` and the no-jp2 path -/

theorem lookupEntry_ite_appendEntry_ne {κ : Type} [DecidableEq κ] (b : Prop) [Decidable b]
    (d : List (κ × List String)) (k kk : κ) (v : String) (h : k ≠ kk) :
    lookupEntry (if b then appendEntry d kk v else d) k = lookupEntry d k := by
  split_ifs with hb
  · exact lookupEntry_appendEntry_ne _ _ _ _ h
  · rfl

/-- `infoPhase` on a nonempty info list whose substring lookups succeed. -/
theorem infoPhase_eval_cons (oj od cj sc f : String) (rest : List String)
    (cases : CasesDict) (idx di : Nat)
    (hpi : pyIndex f cj = some idx) (hpd : pyIndex (pyBasename f) "-" = some di) :
    infoPhase oj od cj sc (f :: rest) cases =
      .ok (
        (let cases1 := if (f :: rest).length ≠ 1 then
            appendEntry cases (CaseKey.str "issues w/ incorrect # infofile") sc else cases
         let cases2 := if oj ≠ pyTakeStr (pyBasename f) di then
            appendEntry cases1 (CaseKey.str "infofile w/o journalname") (pyDropStr f idx)
          else cases1
         if strContains (pyBasename f) od = false then
            appendEntry cases2 (CaseKey.str "infofile w/ incorrect date") (pyDropStr f idx)
          else cases2),
        pyDropStr f idx) := by
  simp only [infoPhase]
  rw [hpi, hpd]
  rfl

theorem infoPhase_err_journal (oj od cj sc f : String) (rest : List String)
    (cases : CasesDict) (hpi : pyIndex f cj = none) :
    infoPhase oj od cj sc (f :: rest) cases = .error "ValueError" := by
  simp only [infoPhase]
  rw [hpi]
  rfl

theorem infoPhase_err_dash (oj od cj sc f : String) (rest : List String)
    (cases : CasesDict) (idx : Nat)
    (hpi : pyIndex f cj = some idx) (hpd : pyIndex (pyBasename f) "-" = none) :
    infoPhase oj od cj sc (f :: rest) cases = .error "ValueError" := by
  simp only [infoPhase]
  rw [hpi, hpd]
  rfl

/-- An `infoPhase` run only touches the four info-related keys. -/
theorem infoPhase_lookup_ne (oj od cj sc : String) (paths : List String)
    (cases cases' : CasesDict) (si : String) (k : CaseKey)
    (h1 : k ≠ CaseKey.str "issues w/o infofile")
    (h2 : k ≠ CaseKey.str "issues w/ incorrect # infofile")
    (h3 : k ≠ CaseKey.str "infofile w/o journalname")
    (h4 : k ≠ CaseKey.str "infofile w/ incorrect date")
    (h : infoPhase oj od cj sc paths cases = .ok (cases', si)) :
    lookupEntry cases' k = lookupEntry cases k := by
  cases paths with
  | nil =>
    simp only [infoPhase] at h
    cases h
    exact lookupEntry_appendEntry_ne _ _ _ _ h1
  | cons f rest =>
    cases hpi : pyIndex f cj with
    | none =>
      rw [infoPhase_err_journal oj od cj sc f rest cases hpi] at h
      cases h
    | some idx =>
      cases hpd : pyIndex (pyBasename f) "-" with
      | none =>
        rw [infoPhase_err_dash oj od cj sc f rest cases idx hpi hpd] at h
        cases h
      | some di =>
        rw [infoPhase_eval_cons oj od cj sc f rest cases idx di hpi hpd] at h
        cases h
        rw [lookupEntry_ite_appendEntry_ne _ _ _ _ _ h4,
          lookupEntry_ite_appendEntry_ne _ _ _ _ _ h3,
          lookupEntry_ite_appendEntry_ne _ _ _ _ _ h2]

/-- With no jp2 images, `check_canonical_issue` reduces to the
`issues_wo_jp2` case followed by the info-file block; the detailed block
is skipped. -/
theorem checkCanonicalIssue_nojp2 (cf : String → Bool) (inp : CanonicalInput)
    (hjp2 : inp.jp2 = []) :
    checkCanonicalIssue cf inp =
      (infoPhase inp.origJournal inp.origDate inp.canoJournal inp.shortCano inp.infoPaths
          [(CaseKey.str "issues w/o jp2", [inp.shortCano])]).map
        (fun r => (r.1,
          { number_original_pagefolder := (pageFoldersOf inp.origZip).length })) := by
  obtain ⟨oj, od, cj, sc, z, jp2, ip, ir⟩ := inp
  simp only at hjp2
  subst hjp2
  cases ip with
  | nil => rfl
  | cons f rest =>
    show (infoPhase oj od cj sc (f :: rest) [(CaseKey.str "issues w/o jp2", [sc])] >>= fun r =>
        pure (r.1, ({ number_original_pagefolder := (pageFoldersOf z).length } : CanStats)))
      = (infoPhase oj od cj sc (f :: rest) [(CaseKey.str "issues w/o jp2", [sc])]).map
          (fun r => (r.1, { number_original_pagefolder := (pageFoldersOf z).length }))
    cases infoPhase oj od cj sc (f :: rest) [(CaseKey.str "issues w/o jp2", [sc])] <;> rfl

/-! ### Claim C7: `issues_wo_jp2` precludes the per-image cases -/

/-- C7: for every paired issue with no canonical jp2 images whose check
returns normally, the case dict contains `issues w/o jp2` against the
issue and no `jp2_wrongdimensions` (under either key shape), no
`jp2 w/ incorrect filename`, and no `pages w/o jp2` entry: the per-image
checks are all inside the `else` / `if info and jp2` blocks that the empty
glob skips. -/
theorem no_jp2_skips_image_checks (cf : String → Bool) (inp : CanonicalInput)
    (c : CasesDict) (s : CanStats)
    (hjp2 : inp.jp2 = [])
    (hok : checkCanonicalIssue cf inp = .ok (c, s)) :
    lookupEntry c (CaseKey.str "issues w/o jp2") = some [inp.shortCano] ∧
    lookupEntry c (CaseKey.str "jp2_wrongdimensions") = none ∧
    lookupEntry c (CaseKey.enumMember CanonicalImageCase.jp2_wrongdimensions) = none ∧
    lookupEntry c (CaseKey.str "jp2 w/ incorrect filename") = none ∧
    lookupEntry c (CaseKey.str "pages w/o jp2") = none := by
  rw [checkCanonicalIssue_nojp2 cf inp hjp2] at hok
  cases hip : infoPhase inp.origJournal inp.origDate inp.canoJournal inp.shortCano
      inp.infoPaths [(CaseKey.str "issues w/o jp2", [inp.shortCano])] with
  | error e =>
    rw [hip] at hok
    cases hok
  | ok r =>
    rw [hip] at hok
    simp only [Except.map] at hok
    cases hok
    obtain ⟨c', si⟩ := r
    have base : ∀ (k : CaseKey),
        k ≠ CaseKey.str "issues w/o infofile" →
        k ≠ CaseKey.str "issues w/ incorrect # infofile" →
        k ≠ CaseKey.str "infofile w/o journalname" →
        k ≠ CaseKey.str "infofile w/ incorrect date" →
        lookupEntry c' k =
          lookupEntry [(CaseKey.str "issues w/o jp2", [inp.shortCano])] k :=
      fun k h1 h2 h3 h4 =>
        infoPhase_lookup_ne inp.origJournal inp.origDate inp.canoJournal inp.shortCano
          inp.infoPaths _ c' si k h1 h2 h3 h4 hip
    refine ⟨?_, ?_, ?_, ?_, ?_⟩
    · rw [base _ (by decide) (by decide) (by decide) (by decide)]
      rfl
    · rw [base _ (by decide) (by decide) (by decide) (by decide)]
      rfl
    · rw [base _ (by decide) (by decide) (by decide) (by decide)]
      rfl
    · rw [base _ (by decide) (by decide) (by decide) (by decide)]
      rfl
    · rw [base _ (by decide) (by decide) (by decide) (by decide)]
      rfl

/-- A paired issue with no jp2 images and no info file. -/
def exInput7 : CanonicalInput :=
  { origJournal := "GDL", origDate := "1900-01-14", canoJournal := "GDL",
    shortCano := "GDL/1900/01/14/a", origZip := .absent,
    jp2 := [], infoPaths := [], infoRecords := [] }

/-- Witness for C7 at a concrete issue with neither jp2 nor info files. -/
theorem no_jp2_skips_image_checks_witness :
    exInput7.jp2 = [] ∧
    checkCanonicalIssue (fun _ => true) exInput7 =
      .ok ([(CaseKey.str "issues w/o jp2", ["GDL/1900/01/14/a"]),
            (CaseKey.str "issues w/o infofile", ["GDL/1900/01/14/a"])], {}) ∧
    (lookupEntry ([(CaseKey.str "issues w/o jp2", ["GDL/1900/01/14/a"]),
        (CaseKey.str "issues w/o infofile", ["GDL/1900/01/14/a"])] : CasesDict)
        (CaseKey.str "issues w/o jp2") = some ["GDL/1900/01/14/a"] ∧
     lookupEntry ([(CaseKey.str "issues w/o jp2", ["GDL/1900/01/14/a"]),
        (CaseKey.str "issues w/o infofile", ["GDL/1900/01/14/a"])] : CasesDict)
        (CaseKey.str "jp2_wrongdimensions") = none ∧
     lookupEntry ([(CaseKey.str "issues w/o jp2", ["GDL/1900/01/14/a"]),
        (CaseKey.str "issues w/o infofile", ["GDL/1900/01/14/a"])] : CasesDict)
        (CaseKey.enumMember CanonicalImageCase.jp2_wrongdimensions) = none ∧
     lookupEntry ([(CaseKey.str "issues w/o jp2", ["GDL/1900/01/14/a"]),
        (CaseKey.str "issues w/o infofile", ["GDL/1900/01/14/a"])] : CasesDict)
        (CaseKey.str "jp2 w/ incorrect filename") = none ∧
     lookupEntry ([(CaseKey.str "issues w/o jp2", ["GDL/1900/01/14/a"]),
        (CaseKey.str "issues w/o infofile", ["GDL/1900/01/14/a"])] : CasesDict)
        (CaseKey.str "pages w/o jp2") = none) := by
  refine ⟨rfl, rfl, ?_⟩
  exact no_jp2_skips_image_checks (fun _ => true) exInput7 _ _ rfl rfl

/-! ### Claim C6: crash-freedom of the canonical check -/

/-- The per-image loop of `check_canonical_issue` succeeds whenever every
jp2 path contains the canonical journal string. -/
theorem jp2Fold_ok (cf : String → Bool) (oj od cj : String) :
    ∀ (l : List (String × Nat)) (acc : CasesDict × Nat × CanStats),
      (∀ x ∈ l, (pyIndex x.1 cj).isSome) →
      ∃ r, l.foldlM (jp2Step cf oj od cj) acc = .ok r := by
  intro l
  induction l with
  | nil => exact fun acc _ => ⟨acc, rfl⟩
  | cons x rest ih =>
    intro acc hl
    obtain ⟨idx, hidx⟩ := Option.isSome_iff_exists.mp (hl x (by simp))
    have hstep : ∃ acc', jp2Step cf oj od cj acc x = .ok acc' := by
      simp only [jp2Step]
      rw [hidx]
      exact ⟨_, rfl⟩
    obtain ⟨acc', hacc⟩ := hstep
    obtain ⟨r, hr⟩ := ih acc' (fun y hy => hl y (List.mem_cons_of_mem _ hy))
    exact ⟨r, by rw [List.foldlM_cons, hacc]; exact hr⟩

/-- The `pages w/o jp2` loop succeeds whenever every page path contains
the canonical journal string. -/
theorem pagesFold_ok (cj : String) :
    ∀ (l : List String) (cs : CasesDict),
      (∀ p ∈ l, (pyIndex p cj).isSome) →
      ∃ r, l.foldlM (pageWoJp2Step cj) cs = .ok r := by
  intro l
  induction l with
  | nil => exact fun cs _ => ⟨cs, rfl⟩
  | cons p rest ih =>
    intro cs hl
    obtain ⟨idx, hidx⟩ := Option.isSome_iff_exists.mp (hl p (by simp))
    have hstep : pageWoJp2Step cj cs p =
        .ok (appendEntry cs (CaseKey.str CanonicalImageCase.page_wo_jp2.value)
          (pyDropStr p idx)) := by
      simp only [pageWoJp2Step]
      rw [hidx]
      rfl
    obtain ⟨r, hr⟩ := ih (appendEntry cs (CaseKey.str CanonicalImageCase.page_wo_jp2.value)
      (pyDropStr p idx)) (fun q hq => hl q (List.mem_cons_of_mem _ hq))
    exact ⟨r, by rw [List.foldlM_cons, hstep]; exact hr⟩

/-- The detailed info/jp2 block succeeds whenever every original page path
contains the canonical journal string (its only fallible step). -/
theorem detailPhase_ok (cj si : String) (pf jp : List String) (recs : List InfoRecord)
    (cs : CasesDict) (st : CanStats)
    (hp : ∀ p ∈ pf, (pyIndex p cj).isSome) :
    ∃ r, detailPhase cj si pf jp recs cs st = .ok r := by
  have hsub : ∀ p ∈ check_image_pairs pf jp, (pyIndex p cj).isSome := by
    intro p hp'
    refine hp p ?_
    simp only [check_image_pairs] at hp'
    exact (List.mem_filter.mp hp').1
  obtain ⟨c1, hc1⟩ := pagesFold_ok cj (check_image_pairs pf jp) cs hsub
  simp only [detailPhase]
  rw [hc1]
  exact ⟨_, rfl⟩

/-- C6 amended: the canonical consistency check returns normally — its
case and stats maps — for every paired issue whose substring lookups
succeed: each jp2 path and each info path contains the canonical journal
string, each info basename contains a dash, and each original page folder
path contains the journal string.  (The counterexample shows the claim
fails without these shape conditions.) -/
theorem canonical_check_ok_of_wellformed
    (cf : String → Bool) (inp : CanonicalInput)
    (hj : ∀ x ∈ inp.jp2, (pyIndex x.1 inp.canoJournal).isSome)
    (hi : ∀ f ∈ inp.infoPaths, (pyIndex f inp.canoJournal).isSome ∧
      (pyIndex (pyBasename f) "-").isSome)
    (hp : ∀ p ∈ pageFoldersOf inp.origZip, (pyIndex p inp.canoJournal).isSome) :
    ∃ r, checkCanonicalIssue cf inp = .ok r := by
  obtain ⟨oj, od, cj, sc, z, jp2, ip, ir⟩ := inp
  have hinfo : ∀ cs : CasesDict, ∃ r, infoPhase oj od cj sc ip cs = .ok r := by
    intro cs
    cases ip with
    | nil => exact ⟨_, rfl⟩
    | cons f rest =>
      obtain ⟨h1, h2⟩ := hi f (List.mem_cons_self f rest)
      obtain ⟨idx, hidx⟩ := Option.isSome_iff_exists.mp h1
      obtain ⟨di, hdi⟩ := Option.isSome_iff_exists.mp h2
      exact ⟨_, infoPhase_eval_cons oj od cj sc f rest cs idx di hidx hdi⟩
  cases jp2 with
  | nil =>
    obtain ⟨r, hr⟩ := hinfo [(CaseKey.str "issues w/o jp2", [sc])]
    rw [checkCanonicalIssue_nojp2 cf ⟨oj, od, cj, sc, z, [], ip, ir⟩ rfl]
    dsimp only
    rw [hr]
    exact ⟨_, rfl⟩
  | cons x xs =>
    obtain ⟨t, hfold⟩ := jp2Fold_ok cf oj od cj (x :: xs)
      ([], 0, { number_original_pagefolder := (pageFoldersOf z).length,
                number_canonical_jp2 := 0 + (x :: xs).length }) hj
    cases ip with
    | nil =>
      show ∃ r', (List.foldlM (jp2Step cf oj od cj)
          ([], 0, { number_original_pagefolder := (pageFoldersOf z).length,
                    number_canonical_jp2 := 0 + (x :: xs).length }) (x :: xs) >>= fun t =>
        infoPhase oj od cj sc [] t.1 >>= fun r =>
        if ([] : List String) ≠ [] ∧ x :: xs ≠ [] then
          detailPhase cj r.2 (pageFoldersOf z) (List.map Prod.fst (x :: xs)) ir r.1 t.2.2
        else pure (r.1, t.2.2)) = Except.ok r'
      rw [hfold]
      exact ⟨_, rfl⟩
    | cons f fs =>
      obtain ⟨h1, h2⟩ := hi f (List.mem_cons_self f fs)
      obtain ⟨idx, hidx⟩ := Option.isSome_iff_exists.mp h1
      obtain ⟨di, hdi⟩ := Option.isSome_iff_exists.mp h2
      show ∃ r', (List.foldlM (jp2Step cf oj od cj)
          ([], 0, { number_original_pagefolder := (pageFoldersOf z).length,
                    number_canonical_jp2 := 0 + (x :: xs).length }) (x :: xs) >>= fun t =>
        infoPhase oj od cj sc (f :: fs) t.1 >>= fun r =>
        if (f :: fs : List String) ≠ [] ∧ x :: xs ≠ [] then
          detailPhase cj r.2 (pageFoldersOf z) (List.map Prod.fst (x :: xs)) ir r.1 t.2.2
        else pure (r.1, t.2.2)) = Except.ok r'
      rw [hfold]
      show ∃ r', (infoPhase oj od cj sc (f :: fs) t.1 >>= fun r =>
        if (f :: fs : List String) ≠ [] ∧ x :: xs ≠ [] then
          detailPhase cj r.2 (pageFoldersOf z) (List.map Prod.fst (x :: xs)) ir r.1 t.2.2
        else pure (r.1, t.2.2)) = Except.ok r'
      rw [infoPhase_eval_cons oj od cj sc f fs t.1 idx di hidx hdi]
      show ∃ r', detailPhase cj (pyDropStr f idx) (pageFoldersOf z)
          (List.map Prod.fst (x :: xs)) ir _ t.2.2 = Except.ok r'
      exact detailPhase_ok cj _ _ _ _ _ _ hp

/-- A well-shaped concrete issue for the C6 witness. -/
def exInput6ok : CanonicalInput :=
  { origJournal := "GDL", origDate := "1900-01-10", canoJournal := "GDL",
    shortCano := "GDL/1900/01/10/a", origZip := .ok ["GDL/1900/01/10/1"],
    jp2 := [("GDL/GDL-1900-01-10-a-p0001.jp2", 7)],
    infoPaths := ["GDL/GDL-1900-01-10-a-image-info.json"],
    infoRecords := [{ s := "tif", s_dim := [4, 4], d_dim := [4, 4] }] }

/-- Witness for the amended C6 at a concrete well-shaped issue. -/
theorem canonical_check_ok_of_wellformed_witness :
    (∀ x ∈ exInput6ok.jp2, (pyIndex x.1 exInput6ok.canoJournal).isSome) ∧
    (∀ f ∈ exInput6ok.infoPaths, (pyIndex f exInput6ok.canoJournal).isSome ∧
      (pyIndex (pyBasename f) "-").isSome) ∧
    (∀ p ∈ pageFoldersOf exInput6ok.origZip, (pyIndex p exInput6ok.canoJournal).isSome) ∧
    (∃ r, checkCanonicalIssue (fun _ => true) exInput6ok = .ok r) := by
  refine ⟨?_, ?_, ?_, ?_⟩
  · decide
  · decide
  · decide
  · exact canonical_check_ok_of_wellformed (fun _ => true) exInput6ok
      (by decide) (by decide) (by decide)

/-! ### Claim C9: order-independence of the journal merges -/

/-- One per-issue result's contribution to the merged list of case `v`:
the head of the first per-issue entry whose key equals `toKey v`, if any
(`cases[c][0]` after the `break`-terminated scan). -/
def contribOpt {κ : Type} [DecidableEq κ] (toKey : String → κ)
    (cases : List (κ × List String)) (v : String) : Option String :=
  (cases.find? (fun e => decide (e.1 = toKey v))).map (fun e => e.2.headD "")

theorem mergeStep_listFor_notmem {κ : Type} [DecidableEq κ] (toKey : String → κ) :
    ∀ (values : List String) (v : String), v ∉ values →
      ∀ (g : List (String × List String)) (cases : List (κ × List String)),
        listFor (mergeStep toKey values g cases) v = listFor g v := by
  intro values
  induction values with
  | nil => intro v _ g cases; rfl
  | cons u rest ih =>
    intro v hv g cases
    have hvu : v ≠ u := fun h => hv (h ▸ List.mem_cons_self u rest)
    have hvr : v ∉ rest := fun h => hv (List.mem_cons_of_mem _ h)
    have hdef : mergeStep toKey (u :: rest) g cases
        = mergeStep toKey rest
            (match cases.find? (fun e => decide (e.1 = toKey u)) with
             | some e => appendEntry g u (e.2.headD "")
             | none => g) cases := rfl
    rw [hdef, ih v hvr]
    cases hfind : cases.find? (fun e => decide (e.1 = toKey u)) with
    | some e => exact listFor_appendEntry_ne _ _ _ _ hvu
    | none => rfl

theorem mergeStep_listFor_mem {κ : Type} [DecidableEq κ] (toKey : String → κ) :
    ∀ (values : List String) (v : String), values.Nodup → v ∈ values →
      ∀ (g : List (String × List String)) (cases : List (κ × List String)),
        listFor (mergeStep toKey values g cases) v
          = listFor g v ++ (contribOpt toKey cases v).toList := by
  intro values
  induction values with
  | nil => intro v _ hv; cases hv
  | cons u rest ih =>
    intro v hnd hv g cases
    have hdef : mergeStep toKey (u :: rest) g cases
        = mergeStep toKey rest
            (match cases.find? (fun e => decide (e.1 = toKey u)) with
             | some e => appendEntry g u (e.2.headD "")
             | none => g) cases := rfl
    rw [hdef]
    rcases List.mem_cons.mp hv with h | h
    · subst h
      have hvr : v ∉ rest := (List.nodup_cons.mp hnd).1
      rw [mergeStep_listFor_notmem toKey rest v hvr]
      simp only [contribOpt]
      cases hfind : cases.find? (fun e => decide (e.1 = toKey v)) with
      | some e =>
        rw [listFor_appendEntry_self]
        rfl
      | none => simp
    · have hvu : v ≠ u := by
        intro hh
        subst hh
        exact (List.nodup_cons.mp hnd).1 h
      rw [ih v (List.nodup_cons.mp hnd).2 h]
      have hstep : listFor (match cases.find? (fun e => decide (e.1 = toKey u)) with
          | some e => appendEntry g u (e.2.headD "")
          | none => g) v = listFor g v := by
        cases hfind : cases.find? (fun e => decide (e.1 = toKey u)) with
        | some e => exact listFor_appendEntry_ne _ _ _ _ hvu
        | none => rfl
      rw [hstep]

theorem foldMerge_listFor {κ α : Type} [DecidableEq κ] (toKey : String → κ)
    (values : List String) (hnd : values.Nodup) (v : String) (hv : v ∈ values)
    (f : α → List (κ × List String)) :
    ∀ (results : List α) (g : List (String × List String)),
      listFor (results.foldl (fun g r => mergeStep toKey values g (f r)) g) v
        = listFor g v ++ results.filterMap (fun r => contribOpt toKey (f r) v) := by
  intro results
  induction results with
  | nil => intro g; simp
  | cons r rest ih =>
    intro g
    simp only [List.foldl_cons, List.filterMap_cons]
    rw [ih, mergeStep_listFor_mem toKey values v hnd hv]
    cases hco : contribOpt toKey (f r) v with
    | none => simp
    | some a => simp

theorem foldl_pair_fst {α β γ : Type} (m1 : β → α → β) (m2 : γ → α → γ) :
    ∀ (l : List α) (b : β) (c : γ),
      (l.foldl (fun acc r => (m1 acc.1 r, m2 acc.2 r)) (b, c)).1 = l.foldl m1 b := by
  intro l
  induction l with
  | nil => intro b c; rfl
  | cons x rest ih =>
    intro b c
    simp only [List.foldl_cons]
    exact ih _ _

theorem foldl_pair_snd {α β γ : Type} (m1 : β → α → β) (m2 : γ → α → γ) :
    ∀ (l : List α) (b : β) (c : γ),
      (l.foldl (fun acc r => (m1 acc.1 r, m2 acc.2 r)) (b, c)).2 = l.foldl m2 c := by
  intro l
  induction l with
  | nil => intro b c; rfl
  | cons x rest ih =>
    intro b c
    simp only [List.foldl_cons]
    exact ih _ _

/-- Folding a right-commutative update is invariant under permutation of
the input list. -/
theorem foldl_perm_of_rightcomm {α β : Type} (f : β → α → β)
    (hrc : ∀ b a a', f (f b a) a' = f (f b a') a) :
    ∀ {l₁ l₂ : List α}, l₁.Perm l₂ → ∀ b, l₁.foldl f b = l₂.foldl f b := by
  intro l₁ l₂ h
  induction h with
  | nil => intro b; rfl
  | cons x h ih =>
    intro b
    simp only [List.foldl_cons]
    exact ih _
  | swap x y l =>
    intro b
    simp only [List.foldl_cons]
    rw [hrc]
  | trans h1 h2 ih1 ih2 =>
    intro b
    rw [ih1, ih2]

theorem mergeCanonicalResults_stats (results : List (CasesDict × CanStats)) :
    (mergeCanonicalResults results).2
      = results.foldl (fun s r => addCanStats s r.2) {} := by
  simp only [mergeCanonicalResults]
  exact foldl_pair_snd
    (fun g (r : CasesDict × CanStats) =>
      mergeStep CaseKey.str (canonicalCaseMembers.map CanonicalImageCase.value) g r.1)
    (fun s (r : CasesDict × CanStats) => addCanStats s r.2) results [] ({} : CanStats)

theorem mergeOriginalResults_stats (results : List (OrigCasesDict × OrigStats)) :
    (mergeOriginalResults results).2
      = results.foldl (fun s r => addOrigStats s r.2) {} := by
  simp only [mergeOriginalResults]
  exact foldl_pair_snd
    (fun g (r : OrigCasesDict × OrigStats) => mergeStep id originalCaseValues g r.1)
    (fun s (r : OrigCasesDict × OrigStats) => addOrigStats s r.2) results [] ({} : OrigStats)

theorem mergeCanonicalResults_cases (results : List (CasesDict × CanStats)) (v : String)
    (hv : v ∈ canonicalCaseMembers.map CanonicalImageCase.value) :
    listFor (mergeCanonicalResults results).1 v
      = results.filterMap (fun r => contribOpt CaseKey.str r.1 v) := by
  have hnd : (canonicalCaseMembers.map CanonicalImageCase.value).Nodup := by decide
  simp only [mergeCanonicalResults]
  rw [foldl_pair_fst (fun g r => mergeStep CaseKey.str
      (canonicalCaseMembers.map CanonicalImageCase.value) g r.1)
    (fun s r => addCanStats s r.2) results [] {}]
  rw [foldMerge_listFor CaseKey.str _ hnd v hv (fun r => r.1) results []]
  rfl

theorem mergeOriginalResults_cases (results : List (OrigCasesDict × OrigStats)) (v : String)
    (hv : v ∈ originalCaseValues) :
    listFor (mergeOriginalResults results).1 v
      = results.filterMap (fun r => contribOpt id r.1 v) := by
  have hnd : originalCaseValues.Nodup := by decide
  simp only [mergeOriginalResults]
  rw [foldl_pair_fst (fun g r => mergeStep id originalCaseValues g r.1)
    (fun s r => addOrigStats s r.2) results [] {}]
  rw [foldMerge_listFor id _ hnd v hv (fun r => r.1) results []]
  rfl

/-- C9: the journal-level merges are order-independent: permuting the list
of per-issue results leaves every summed stats dict unchanged and permutes
each case's merged list, so sequential and worker-pool execution agree up
to per-case list order. -/
theorem merge_order_independent
    (rs₁ rs₂ : List (CasesDict × CanStats)) (os₁ os₂ : List (OrigCasesDict × OrigStats))
    (hc : rs₁.Perm rs₂) (ho : os₁.Perm os₂) :
    (mergeCanonicalResults rs₁).2 = (mergeCanonicalResults rs₂).2 ∧
    (∀ m : CanonicalImageCase,
      (listFor (mergeCanonicalResults rs₁).1 m.value).Perm
        (listFor (mergeCanonicalResults rs₂).1 m.value)) ∧
    (mergeOriginalResults os₁).2 = (mergeOriginalResults os₂).2 ∧
    (∀ v ∈ originalCaseValues,
      (listFor (mergeOriginalResults os₁).1 v).Perm
        (listFor (mergeOriginalResults os₂).1 v)) := by
  refine ⟨?_, ?_, ?_, ?_⟩
  · rw [mergeCanonicalResults_stats, mergeCanonicalResults_stats]
    exact foldl_perm_of_rightcomm (fun s (r : CasesDict × CanStats) => addCanStats s r.2)
      (fun b a a' => by simp only [addCanStats, CanStats.mk.injEq]; omega) hc ({} : CanStats)
  · intro m
    have hv : m.value ∈ canonicalCaseMembers.map CanonicalImageCase.value := by
      cases m <;> decide
    rw [mergeCanonicalResults_cases rs₁ m.value hv,
      mergeCanonicalResults_cases rs₂ m.value hv]
    exact hc.filterMap _
  · rw [mergeOriginalResults_stats, mergeOriginalResults_stats]
    exact foldl_perm_of_rightcomm (fun s (r : OrigCasesDict × OrigStats) => addOrigStats s r.2)
      (fun b a a' => by simp only [addOrigStats, OrigStats.mk.injEq]; omega) ho ({} : OrigStats)
  · intro v hv
    rw [mergeOriginalResults_cases os₁ v hv, mergeOriginalResults_cases os₂ v hv]
    exact ho.filterMap _

/-- Two concrete canonical per-issue results for the C9 witness. -/
def exCanRes1 : CasesDict × CanStats :=
  ([(CaseKey.str "issues w/o jp2", ["A/1900/01/01/a"])], {})

/-- A second canonical per-issue result. -/
def exCanRes2 : CasesDict × CanStats :=
  ([(CaseKey.str "pages w/o jp2", ["A/1900/01/02/1"])], { number_tif := 1 })

/-- Two concrete original per-issue results for the C9 witness. -/
def exOrigRes1 : OrigCasesDict × OrigStats :=
  ([("issues w/o zip", ["A/1900/01/03"])], {})

/-- A second original per-issue result. -/
def exOrigRes2 : OrigCasesDict × OrigStats :=
  ([("issues_homogeneouscoverage_tifs", ["A/1900/01/04"])], { number_pages := 2 })

/-- Witness for C9 on two-element result lists merged in both orders. -/
theorem merge_order_independent_witness :
    ([exCanRes1, exCanRes2] : List (CasesDict × CanStats)).Perm [exCanRes2, exCanRes1] ∧
    ([exOrigRes1, exOrigRes2] : List (OrigCasesDict × OrigStats)).Perm
      [exOrigRes2, exOrigRes1] ∧
    ((mergeCanonicalResults [exCanRes1, exCanRes2]).2
        = (mergeCanonicalResults [exCanRes2, exCanRes1]).2 ∧
     (∀ m : CanonicalImageCase,
       (listFor (mergeCanonicalResults [exCanRes1, exCanRes2]).1 m.value).Perm
         (listFor (mergeCanonicalResults [exCanRes2, exCanRes1]).1 m.value)) ∧
     (mergeOriginalResults [exOrigRes1, exOrigRes2]).2
        = (mergeOriginalResults [exOrigRes2, exOrigRes1]).2 ∧
     (∀ v ∈ originalCaseValues,
       (listFor (mergeOriginalResults [exOrigRes1, exOrigRes2]).1 v).Perm
         (listFor (mergeOriginalResults [exOrigRes2, exOrigRes1]).1 v))) := by
  refine ⟨?_, ?_, ?_⟩
  · exact List.Perm.swap _ _ _
  · exact List.Perm.swap _ _ _
  · exact merge_order_independent [exCanRes1, exCanRes2] [exCanRes2, exCanRes1]
      [exOrigRes1, exOrigRes2] [exOrigRes2, exOrigRes1]
      (List.Perm.swap _ _ _) (List.Perm.swap _ _ _)

/-! ### Claim C8: a missing container yields exactly the `no_zip` case and
all-zero stats -/

/-- C8: for every original issue whose `Document.zip` is absent,
`check_original_issue` records exactly the single case `issues w/o zip`
against the issue's short path, attempts no other check, and returns the
all-zero `OriginalJournalStats` dict. -/
theorem missing_zip_single_case_zero_stats
    (gt gp gj : List String → String → Option String) (inp : OriginalInput)
    (h : inp.zip = .absent) :
    checkOriginalIssue gt gp gj inp =
      .ok ([("issues w/o zip", [inp.shortOrig])],
        { issues_orig := 0, issues_valid := 0, issues_with_large_pdf := 0,
          issues_with_small_pdfs := 0, number_pages := 0, number_tif := 0,
          number_png := 0, number_jpg := 0 }) := by
  obtain ⟨so, z, bp, sp⟩ := inp
  simp only at h
  subst h
  rfl

/-- Witness for C8 at a concrete issue. -/
theorem missing_zip_single_case_zero_stats_witness :
    ({ shortOrig := "GDL/1900/01/10", zip := .absent, bigPdfs := [],
       smallPdfs := [] } : OriginalInput).zip = OrigZipState.absent ∧
    checkOriginalIssue (fun _ _ => none) (fun _ _ => none) (fun _ _ => none)
      { shortOrig := "GDL/1900/01/10", zip := .absent, bigPdfs := [], smallPdfs := [] } =
      .ok ([("issues w/o zip", ["GDL/1900/01/10"])],
        { issues_orig := 0, issues_valid := 0, issues_with_large_pdf := 0,
          issues_with_small_pdfs := 0, number_pages := 0, number_tif := 0,
          number_png := 0, number_jpg := 0 }) :=
  ⟨rfl, missing_zip_single_case_zero_stats _ _ _ _ rfl⟩

/-! ### Claim C10: an openable container with zero page folders is
classified `homogeneous_tifs` -/

/-- C10: when the container opens and `get_page_folders` yields no page
folders, every page counter is zero, so `total == page_number` holds with
both sides `0` and the first satisfied branch is the only-tif one: the
issue is classified `issues_homogeneouscoverage_tifs`. -/
theorem empty_issue_classified_homogeneous_tifs
    (gt gp gj : List String → String → Option String) (inp : OriginalInput)
    (a : ArchiveContents) (hz : inp.zip = .ok a) (hpf : a.pageFolders = []) :
    checkOriginalIssue gt gp gj inp =
      .ok ([("issues_homogeneouscoverage_tifs", [inp.shortOrig])],
        { issues_valid := 1, number_pages := 0,
          number_tif := a.tifs.length, number_png := a.pngs.length,
          number_jpg := a.jpgs.length,
          issues_with_large_pdf := if inp.bigPdfs ≠ [] then 1 else 0,
          issues_with_small_pdfs := if inp.smallPdfs ≠ [] then 1 else 0 }) := by
  obtain ⟨so, z, bp, sp⟩ := inp
  simp only at hz
  subst hz
  obtain ⟨pf, tf, pg, jg⟩ := a
  simp only at hpf
  subst hpf
  rfl

/-- Witness for C10 at a concrete issue. -/
theorem empty_issue_classified_homogeneous_tifs_witness :
    ({ shortOrig := "GDL/1900/01/11", zip := .ok ⟨[], [], [], []⟩, bigPdfs := [],
       smallPdfs := [] } : OriginalInput).zip = OrigZipState.ok ⟨[], [], [], []⟩ ∧
    (⟨[], [], [], []⟩ : ArchiveContents).pageFolders = [] ∧
    checkOriginalIssue (fun _ _ => none) (fun _ _ => none) (fun _ _ => none)
      { shortOrig := "GDL/1900/01/11", zip := .ok ⟨[], [], [], []⟩, bigPdfs := [],
        smallPdfs := [] } =
      .ok ([("issues_homogeneouscoverage_tifs", ["GDL/1900/01/11"])],
        { issues_valid := 1, number_pages := 0, number_tif := 0, number_png := 0,
          number_jpg := 0,
          issues_with_large_pdf := if ([] : List String) ≠ [] then 1 else 0,
          issues_with_small_pdfs := if ([] : List String) ≠ [] then 1 else 0 }) :=
  ⟨rfl, rfl,
    empty_issue_classified_homogeneous_tifs (fun _ _ => none) (fun _ _ => none)
      (fun _ _ => none)
      { shortOrig := "GDL/1900/01/11", zip := .ok ⟨[], [], [], []⟩, bigPdfs := [],
        smallPdfs := [] }
      ⟨[], [], [], []⟩ rfl rfl⟩

/-! ### Claim C2: the journal merge keeps only the first offending path of
each case of each issue -/

/-- A paired issue whose two jp2 files both fail the naming check. -/
def exInput2 : CanonicalInput :=
  { origJournal := "GDL", origDate := "1900-01-10", canoJournal := "GDL",
    shortCano := "GDL/1900/01/10/a", origZip := .absent,
    jp2 := [("GDL/a.jp2", 1), ("GDL/b.jp2", 1)], infoPaths := [], infoRecords := [] }

/-- The per-issue result of `exInput2`, wrapped as a one-issue journal run. -/
def exResults2 : List (CasesDict × CanStats) :=
  match checkCanonicalIssue (fun _ => false) exInput2 with
  | .ok p => [p]
  | .error _ => []

/-- C2 refuted on the code: the issue records two offending paths under
`jp2 w/ incorrect filename`, but the journal merge appends only
`cases[c][0]`, so the merged registry retains a single path.  (The
repository's own test expects both paths of one issue to survive the
merge, e.g. the two `jp2 w/o journalname` entries of
`TESTIMGCANOTWO/1900/01/11/a`.) -/
theorem merge_keeps_only_first_offending_path :
    listFor (exResults2.headD ([], {})).1 (CaseKey.str "jp2 w/ incorrect filename") =
      ["GDL/a.jp2", "GDL/b.jp2"] ∧
    listFor (mergeCanonicalResults exResults2).1 "jp2 w/ incorrect filename" =
      ["GDL/a.jp2"] :=
  ⟨rfl, rfl⟩

/-! ### Claim C3: `jp2_wrongdimensions` entries never reach the journal
registry -/

/-- A paired issue with one jp2, a well-formed info file, and one metadata
record whose source and derived dimensions differ. -/
def exInput3 : CanonicalInput :=
  { origJournal := "GDL", origDate := "1900-01-10", canoJournal := "GDL",
    shortCano := "GDL/1900/01/10/a", origZip := .absent,
    jp2 := [("GDL/GDL-1900-01-10-a-p0001.jp2", 5)],
    infoPaths := ["GDL/GDL-1900-01-10-a-image-info.json"],
    infoRecords := [{ s := "tif", s_dim := [2, 2], d_dim := [3, 3] }] }

/-- The per-issue result of `exInput3`, wrapped as a one-issue journal run. -/
def exResults3 : List (CasesDict × CanStats) :=
  match checkCanonicalIssue (fun _ => true) exInput3 with
  | .ok p => [p]
  | .error _ => []

/-- C3 refuted on the code: the dimension mismatch is recorded under the
bare enum member key (source line 295 omits `.value`), string-keyed
lookups find nothing, and the journal merge — which compares keys against
`member.value` strings — drops the entry entirely: the merged registry is
empty. -/
theorem wrongdimensions_entry_dropped_by_merge :
    lookupEntry (exResults3.headD ([], {})).1
        (CaseKey.enumMember CanonicalImageCase.jp2_wrongdimensions) =
      some ["GDL/GDL-1900-01-10-a-image-info.json"] ∧
    lookupEntry (exResults3.headD ([], {})).1 (CaseKey.str "jp2_wrongdimensions") = none ∧
    (mergeCanonicalResults exResults3).1 = [] :=
  ⟨rfl, rfl, rfl⟩

/-! ### Claim C4: the per-issue jp2 size stat is not the sum of sizes -/

/-- A paired issue with two jp2 files of 10 and 20 bytes. -/
def exInput4 : CanonicalInput :=
  { origJournal := "GDL", origDate := "1900-01-10", canoJournal := "GDL",
    shortCano := "GDL/1900/01/10/a", origZip := .absent,
    jp2 := [("GDL/a.jp2", 10), ("GDL/b.jp2", 20)], infoPaths := [], infoRecords := [] }

/-- C4 refuted on the code: because `local_stats_dict[size_jp2] += jp2_bytes`
sits inside the loop while `jp2_bytes` itself accumulates, the stat is the
sum of running prefix sums (10 + 30 = 40), not the 30-byte total. -/
theorem size_stat_not_sum_of_sizes :
    checkCanonicalIssue (fun _ => true) exInput4 =
      .ok ([(CaseKey.str "jp2 w/o journalname", ["GDL/a.jp2", "GDL/b.jp2"]),
            (CaseKey.str "jp2 w/ incorrect date", ["GDL/a.jp2", "GDL/b.jp2"]),
            (CaseKey.str "issues w/o infofile", ["GDL/1900/01/10/a"])],
        { size_jp2 := 40, number_canonical_jp2 := 2 }) ∧
    (exInput4.jp2.map Prod.snd).sum = 30 ∧ (40 : Nat) ≠ 30 :=
  ⟨rfl, rfl, by decide⟩

/-! ### Claim C6 counterexample: a dash-less metadata filename crashes the
canonical check -/

/-- A paired issue whose only metadata file basename contains no dash. -/
def exInput6 : CanonicalInput :=
  { origJournal := "GDL", origDate := "1900-01-10", canoJournal := "GDL",
    shortCano := "GDL/1900/01/10/a", origZip := .absent,
    jp2 := [], infoPaths := ["GDL/infofile.json"], infoRecords := [] }

/-- C6 counterexample: `baseinfo[:baseinfo.index("-")]` (source line 261)
raises `ValueError` when the metadata basename contains no `-`, so the
check does not return normally for a metadata filename of this shape. -/
theorem dashless_infofile_name_raises :
    checkCanonicalIssue (fun _ => true) exInput6 = .error "ValueError" :=
  rfl

end ImagesCheck
